import Mathlib

/-
  Verification development for the Jungeon browser MUD.

  The repository ships the browser client (client/app.js, client/modules/ui.js,
  client/modules/network.js) together with the README and design plans for the
  server.  The server-side coordination core (WorldState, CharacterRegistry,
  MessagingRouter, name resolution) is specified in spec.md and in
  plans/Communication.md but its code is not part of the shipped sources, so
  those components are modelled here from the specification text.  The client
  components are shallow embeddings of the JavaScript in client/.
-/

namespace Jungeon

/-! ## String helpers

JavaScript string operations (toLowerCase, toUpperCase, trim, startsWith,
first-word extraction) are embedded as kernel-reducible functions on the
character list underlying a Lean String. -/

def lowerStr (s : String) : String := ⟨s.data.map Char.toLower⟩

def upperStr (s : String) : String := ⟨s.data.map Char.toUpper⟩

def isWsChar (c : Char) : Bool :=
  c = ' ' || c = '\t' || c = '\n' || c = '\r'

/-- Embedding of the JavaScript String.prototype.trim used on command input. -/
def trimStr (s : String) : String :=
  ⟨((s.data.dropWhile isWsChar).reverse.dropWhile isWsChar).reverse⟩

def firstWordChars : List Char → List Char
  | [] => []
  | c :: rest => if c = ' ' then [] else c :: firstWordChars rest

/-- The first word of a display name (everything before the first space). -/
def firstWord (s : String) : String := ⟨firstWordChars s.data⟩

/-- Case-insensitive test that `p` is a prefix of `s`. -/
def ciPrefixOf (p s : String) : Bool :=
  (lowerStr p).data.isPrefixOf (lowerStr s).data

/-- The single-quote character, used in message formats. -/
def sq : String := ⟨[Char.ofNat 39]⟩

/-! ## World state (spec sections 3 and 4.1)

Modelled from the spec: the server-side WorldState code is not in the shipped
sources; rooms carry a mutable coin count keyed by room id, and each online
character has one PlayerSession holding its inventory coin count. -/

/-- Modelled from the spec: a PlayerSession record (spec section 3) with
character id, display name, current room id, inventory coin count and the
optional last-message-sender id used by reply. -/
structure PlayerSession where
  charId : String
  name : String
  roomId : String
  coins : Nat
  lastSender : Option String
deriving Repr, DecidableEq

/-- Modelled from the spec: the authoritative world state, room coin counts
plus the sessions of the online characters. -/
structure World where
  rooms : List (String × Nat)
  sessions : List PlayerSession
deriving Repr, DecidableEq

def lookupRoom : List (String × Nat) → String → Option Nat
  | [], _ => none
  | (r, c) :: rest, rid => if r = rid then some c else lookupRoom rest rid

def setRoomCoins : List (String × Nat) → String → Nat → List (String × Nat)
  | [], _, _ => []
  | (r, c0) :: rest, rid, c =>
      if r = rid then (r, c) :: rest else (r, c0) :: setRoomCoins rest rid c

def findSession : List PlayerSession → String → Option PlayerSession
  | [], _ => none
  | s :: rest, cid => if s.charId = cid then some s else findSession rest cid

def setSessionCoins : List PlayerSession → String → Nat → List PlayerSession
  | [], _, _ => []
  | s :: rest, cid, c =>
      if s.charId = cid then { s with coins := c } :: rest
      else s :: setSessionCoins rest cid c

/-- Outcome of a collect command (spec section 4.1). -/
inductive CollectOutcome where
  | collected (n : Nat)
  | nothingToCollect
  | failed
deriving Repr, DecidableEq

/-- Outcome of a drop command (spec section 4.1). -/
inductive DropOutcome where
  | dropped (n : Nat)
  | nothingToDrop
  | failed
deriving Repr, DecidableEq

/-- Modelled from the spec: collectCoins(charId) transfers all coins in the
character room to the inventory; the zero-coin case is a non-error
informational result and leaves the world unchanged (spec section 4.1). -/
def collectCoins (w : World) (charId : String) : World × CollectOutcome :=
  match findSession w.sessions charId with
  | none => (w, .failed)
  | some s =>
    match lookupRoom w.rooms s.roomId with
    | none => (w, .failed)
    | some rc =>
      if rc = 0 then (w, .nothingToCollect)
      else
        ({ rooms := setRoomCoins w.rooms s.roomId 0,
           sessions := setSessionCoins w.sessions charId (s.coins + rc) },
         .collected rc)

/-- Modelled from the spec: dropCoins(charId) is the symmetric transfer from
inventory back to the room; the empty-inventory case is likewise non-error
(spec section 4.1). -/
def dropCoins (w : World) (charId : String) : World × DropOutcome :=
  match findSession w.sessions charId with
  | none => (w, .failed)
  | some s =>
    if s.coins = 0 then (w, .nothingToDrop)
    else
      match lookupRoom w.rooms s.roomId with
      | none => (w, .failed)
      | some rc =>
        ({ rooms := setRoomCoins w.rooms s.roomId (rc + s.coins),
           sessions := setSessionCoins w.sessions charId 0 },
         .dropped s.coins)

/-- Modelled from the spec: the informational message reported for a collect
(spec section 4.1 and the collect scenario in section 8). -/
def collectMessage : CollectOutcome → String
  | .collected n => "collected " ++ toString n ++ " coins"
  | .nothingToCollect => "nothing to collect"
  | .failed => "no such character or room"

def roomCoinSum (rooms : List (String × Nat)) : Nat :=
  (rooms.map Prod.snd).sum

def invCoinSum (sessions : List PlayerSession) : Nat :=
  (sessions.map PlayerSession.coins).sum

/-- Total coins in the world: sum over rooms plus sum over inventories. -/
def totalCoins (w : World) : Nat :=
  roomCoinSum w.rooms + invCoinSum w.sessions

/-- A coin-moving operation: collect or drop by some character. -/
inductive CoinOp where
  | collect (charId : String)
  | drop (charId : String)
deriving Repr, DecidableEq

def applyCoinOp (w : World) (op : CoinOp) : World :=
  match op with
  | .collect cid => (collectCoins w cid).1
  | .drop cid => (dropCoins w cid).1

def applyCoinOps (w : World) (ops : List CoinOp) : World :=
  ops.foldl applyCoinOp w

/-! ## Character registry (spec section 4.2)

Modelled from the spec: the CharacterRegistry enforces at most one live
session per character identity; all mutations pass through one serialization
point (spec section 5), so an interleaving of two checkout calls is one of the
two sequential orders of the calls. -/

/-- Modelled from the spec: the registry state, the set of character ids
currently bound to a live session. -/
structure Registry where
  inUse : List String
deriving Repr, DecidableEq

inductive CheckoutResult where
  | ok
  | alreadyInUse
deriving Repr, DecidableEq

/-- Modelled from the spec: checkout(characterId) creates and binds a new
session, failing with AlreadyInUse when the id is already bound
(spec section 4.2). -/
def checkout (r : Registry) (id : String) : Registry × CheckoutResult :=
  if id ∈ r.inUse then (r, .alreadyInUse)
  else ({ inUse := id :: r.inUse }, .ok)

/-! ## Name resolution (spec section 4.5)

Modelled from the spec: the resolver code lives in the server, which is not in
the shipped sources; resolution order is the reserved token all, then exact
case-insensitive full-name match, then case-insensitive prefix match against
the first word of each online display name. -/

inductive ResolveResult where
  | all
  | hit (name : String)
  | notFound
  | ambiguous (candidates : List String)
deriving Repr, DecidableEq

def exactMatches (token : String) (online : List String) : List String :=
  online.filter (fun n => lowerStr n == lowerStr token)

def firstWordHits (token : String) (online : List String) : List String :=
  online.filter (fun n => ciPrefixOf token (firstWord n))

/-- Modelled from the spec: name resolution (spec section 4.5).  The reserved
token all is resolved first; else a unique exact case-insensitive full-name
match wins; else the case-insensitive prefix matches against each online name
first word decide: zero gives NotFound, one gives the hit, several give
Ambiguous with the candidate names. -/
def resolveName (token : String) (online : List String) : ResolveResult :=
  if lowerStr token = "all" then .all
  else
    match exactMatches token online with
    | [n] => .hit n
    | _ =>
      match firstWordHits token online with
      | [] => .notFound
      | [n] => .hit n
      | ns => .ambiguous ns

/-! ## Messaging router (spec section 4.6)

Modelled from the spec: tell, yell and reply live in the server, which is not
in the shipped sources.  Message formats follow plans/Communication.md; a
broadcast goes to every other online character and records the sender as each
recipient last sender. -/

/-- Modelled from the spec: the messaging view of the world, the sessions of
the online characters (display name and last-message-sender id). -/
structure MsgState where
  sessions : List PlayerSession
deriving Repr, DecidableEq

inductive MsgTarget where
  | toChar (charId : String)
  | toAll
deriving Repr, DecidableEq

/-- One delivered message: recipient character id and the formatted text. -/
structure Delivery where
  recipient : String
  message : String
deriving Repr, DecidableEq

inductive MsgError where
  | notFound
  | noPriorSender
deriving Repr, DecidableEq

/-- Record `sender` as the last-message-sender of character `cid`. -/
def setLastSender (sessions : List PlayerSession) (cid sender : String) :
    List PlayerSession :=
  sessions.map fun s =>
    if s.charId = cid then { s with lastSender := some sender } else s

/-- Record `sender` as the last-message-sender of every other character. -/
def setAllLastSender (sessions : List PlayerSession) (sender : String) :
    List PlayerSession :=
  sessions.map fun s =>
    if s.charId = sender then s else { s with lastSender := some sender }

def tellFormatDirect (senderName text : String) : String :=
  senderName ++ " tells you: " ++ sq ++ text ++ sq

def tellFormatAll (senderName text : String) : String :=
  senderName ++ " tells everyone: " ++ sq ++ text ++ sq

def yellFormatDirect (senderName text : String) : String :=
  upperStr senderName ++ " YELLS AT YOU: " ++ sq ++ upperStr text ++ sq

def yellFormatAll (senderName text : String) : String :=
  upperStr senderName ++ " YELLS AT EVERYONE: " ++ sq ++ upperStr text ++ sq

/-- Modelled from the spec: tell(senderId, target, text) delivers the
formatted message to the target (or to every other online character for a
broadcast) and sets each recipient last-message-sender to the sender id;
targeting an unknown character is a private error (spec section 4.6). -/
def tell (st : MsgState) (senderId : String) (target : MsgTarget)
    (text : String) : Except MsgError (MsgState × List Delivery) :=
  match findSession st.sessions senderId with
  | none => .error .notFound
  | some sender =>
    match target with
    | .toChar tid =>
      match findSession st.sessions tid with
      | none => .error .notFound
      | some _ =>
        .ok ({ sessions := setLastSender st.sessions tid senderId },
             [{ recipient := tid, message := tellFormatDirect sender.name text }])
    | .toAll =>
      .ok ({ sessions := setAllLastSender st.sessions senderId },
           (st.sessions.filter (fun s => s.charId != senderId)).map
             (fun s => { recipient := s.charId,
                         message := tellFormatAll sender.name text }))

/-- Modelled from the spec: yell(senderId, target, text) has the semantics of
tell with the sender phrase and the text upper-cased (spec section 4.6). -/
def yell (st : MsgState) (senderId : String) (target : MsgTarget)
    (text : String) : Except MsgError (MsgState × List Delivery) :=
  match findSession st.sessions senderId with
  | none => .error .notFound
  | some sender =>
    match target with
    | .toChar tid =>
      match findSession st.sessions tid with
      | none => .error .notFound
      | some _ =>
        .ok ({ sessions := setLastSender st.sessions tid senderId },
             [{ recipient := tid, message := yellFormatDirect sender.name text }])
    | .toAll =>
      .ok ({ sessions := setAllLastSender st.sessions senderId },
           (st.sessions.filter (fun s => s.charId != senderId)).map
             (fun s => { recipient := s.charId,
                         message := yellFormatAll sender.name text }))

/-- Modelled from the spec: reply(senderId, text) looks up the sender own
last-message-sender, fails with NoPriorSender when none is recorded, and
otherwise behaves as tell to that id (spec section 4.6). -/
def reply (st : MsgState) (senderId : String) (text : String) :
    Except MsgError (MsgState × List Delivery) :=
  match findSession st.sessions senderId with
  | none => .error .notFound
  | some sender =>
    match sender.lastSender with
    | none => .error .noPriorSender
    | some t => tell st senderId (.toChar t) text

/-! ## Client embedding (client/app.js, client/modules/ui.js,
client/modules/network.js)

The DOM is embedded as an explicit UiState record; each UiController method
becomes a state transformer.  JavaScript truthiness on the optional payload
fields is modelled on Option values: an absent field or an empty string is
falsy, a present array is truthy. -/

/-- One control button: its data-command attribute and its disabled flag. -/
structure Button where
  command : String
  disabled : Bool
deriving Repr, DecidableEq

/-- The visible client state touched by the message handlers. -/
structure UiState where
  log : List (String × String)
  roomName : String
  roomExits : String
  goldCount : String
  minimap : String
  inventoryItems : List String
  buttons : List Button
deriving Repr, DecidableEq

/-- Embedding of UiController.appendLog: appends one (text, kind) line. -/
def appendLog (st : UiState) (text kind : String) : UiState :=
  { st with log := st.log ++ [(text, kind)] }

/-- The data object of a server payload; every field is optional, mirroring a
parsed JSON object. -/
structure MsgData where
  name : Option String
  description : Option String
  exits : Option (List String)
  minimap : Option String
  text : Option String
  coins : Option Int
  message : Option String
  items : Option (List String)
deriving Repr, DecidableEq

/-- A parsed inbound server message: a type tag and a data object. -/
structure ServerMsg where
  type : String
  data : MsgData
deriving Repr, DecidableEq

/-- JavaScript string interpolation of a possibly-absent value. -/
def jsStr : Option String → String
  | some s => s
  | none => "undefined"

/-- JavaScript truthiness of an optional string field. -/
def strTruthy : Option String → Bool
  | some s => s != ""
  | none => false

/-- Embedding of Array.prototype.join with separator comma-space. -/
def joinComma : List String → String
  | [] => ""
  | [x] => x
  | x :: y :: rest => x ++ ", " ++ joinComma (y :: rest)

/-- Embedding of the per-button body of UiController._updateControlButtons:
a directional button (n, s, e, w) is disabled exactly when the corresponding
full direction name is missing from the lower-cased exits; any other button is
untouched. -/
def updButton (exits : List String) (btn : Button) : Button :=
  let exitsSet := exits.map lowerStr
  let cmd := lowerStr btn.command
  if cmd = "n" || cmd = "s" || cmd = "e" || cmd = "w" then
    let needed :=
      if cmd = "n" then "north"
      else if cmd = "s" then "south"
      else if cmd = "e" then "east"
      else "west"
    { btn with disabled := !(exitsSet.contains needed) }
  else btn

/-- Embedding of UiController._updateControlButtons over the button list. -/
def updateControlButtons (exits : List String) (buttons : List Button) :
    List Button :=
  buttons.map (updButton exits)

/-- Embedding of UiController.renderRoom: guarded field-by-field update of
room name, exits line (with control-button refresh), minimap and description
log line. -/
def renderRoom (st : UiState) (room : MsgData) : UiState :=
  let st1 :=
    if strTruthy room.name then { st with roomName := jsStr room.name } else st
  let st2 :=
    match room.exits with
    | some exits =>
        { st1 with roomExits := "Exits: " ++ joinComma exits,
                   buttons := updateControlButtons exits st1.buttons }
    | none => st1
  let st3 :=
    if strTruthy room.minimap then { st2 with minimap := jsStr room.minimap }
    else st2
  if strTruthy room.description then
    appendLog st3 ("\n" ++ jsStr room.name ++ "\n" ++ jsStr room.description)
      "normal"
  else st3

/-- Embedding of UiController.renderInventory: updates the gold counter when
coins is a number and the item list when items is an array. -/
def renderInventory (st : UiState) (data : MsgData) : UiState :=
  let st1 :=
    match data.coins with
    | some n => { st with goldCount := toString n }
    | none => st
  match data.items with
  | some items => { st1 with inventoryItems := items }
  | none => st1

/-- Embedding of GameClient.handleServerMessage: dispatch on the four payload
types roomState, event, inventory and error; anything else is ignored. -/
def handleServerMessage (st : UiState) (msg : ServerMsg) : UiState :=
  if msg.type = "roomState" then renderRoom st msg.data
  else if msg.type = "event" then
    match msg.data.text with
    | some t => if t != "" then appendLog st t "event" else st
    | none => st
  else if msg.type = "inventory" then renderInventory st msg.data
  else if msg.type = "error" then
    match msg.data.message with
    | some m => if m != "" then appendLog st m "error" else st
    | none => st
  else st

/-- Embedding of the message listener installed by createWebSocket: the raw
payload is parsed, a parse failure is swallowed and the callback runs only on
a successfully parsed message.  JSON.parse is abstracted as a fallible parse
function. -/
def onRawMessage (parse : String → Option ServerMsg) (st : UiState)
    (payload : String) : UiState :=
  match parse payload with
  | some msg => handleServerMessage st msg
  | none => st

/-- The WebSocket OPEN ready state. -/
def wsOPEN : Nat := 1

/-- The network-facing client state: the socket ready state when a socket
exists, and the frames sent so far (their command text). -/
structure NetState where
  ws : Option Nat
  sent : List String
deriving Repr, DecidableEq

/-- Embedding of GameClient.sendCommand: a frame is sent only when the text is
non-empty and the socket exists and is OPEN. -/
def sendCommand (ns : NetState) (text : String) : NetState :=
  if text = "" then ns
  else
    match ns.ws with
    | none => ns
    | some rs =>
        if rs = wsOPEN then { ns with sent := ns.sent ++ [text] } else ns

/-- Embedding of the Enter-key path (UiController.bindCommandInput feeding
GameClient.sendCommand): the input is trimmed and an empty result is
dropped before sendCommand runs. -/
def enterKey (ns : NetState) (raw : String) : NetState :=
  let value := trimStr raw
  if value = "" then ns else sendCommand ns value

/-! ## Helper lemmas -/

theorem roomCoinSum_setRoomCoins (rooms : List (String × Nat)) (rid : String)
    (rc c : Nat) (h : lookupRoom rooms rid = some rc) :
    roomCoinSum (setRoomCoins rooms rid c) + rc = roomCoinSum rooms + c := by
  induction rooms with
  | nil => simp [lookupRoom] at h
  | cons p rest ih =>
    obtain ⟨r0, c0⟩ := p
    by_cases hr : r0 = rid
    · simp [lookupRoom, hr] at h
      subst h
      simp [setRoomCoins, hr, roomCoinSum, List.map, List.sum_cons]
      omega
    · simp [lookupRoom, hr] at h
      have := ih h
      simp [setRoomCoins, hr, roomCoinSum, List.map, List.sum_cons] at *
      omega

theorem invCoinSum_setSessionCoins (sessions : List PlayerSession)
    (cid : String) (s : PlayerSession) (c : Nat)
    (h : findSession sessions cid = some s) :
    invCoinSum (setSessionCoins sessions cid c) + s.coins =
      invCoinSum sessions + c := by
  induction sessions with
  | nil => simp [findSession] at h
  | cons s0 rest ih =>
    by_cases hc : s0.charId = cid
    · simp [findSession, hc] at h
      subst h
      simp [setSessionCoins, hc, invCoinSum, List.map, List.sum_cons]
      omega
    · simp [findSession, hc] at h
      have := ih h
      simp [setSessionCoins, hc, invCoinSum, List.map, List.sum_cons] at *
      omega

theorem totalCoins_collectCoins (w : World) (cid : String) :
    totalCoins (collectCoins w cid).1 = totalCoins w := by
  cases hf : findSession w.sessions cid with
  | none => simp [collectCoins, hf]
  | some s =>
    cases hr : lookupRoom w.rooms s.roomId with
    | none => simp [collectCoins, hf, hr]
    | some rc =>
      by_cases hz : rc = 0
      · simp [collectCoins, hf, hr, hz]
      · have h1 := roomCoinSum_setRoomCoins w.rooms s.roomId rc 0 hr
        have h2 := invCoinSum_setSessionCoins w.sessions cid s (s.coins + rc) hf
        simp [collectCoins, hf, hr, hz, totalCoins]
        omega

theorem totalCoins_dropCoins (w : World) (cid : String) :
    totalCoins (dropCoins w cid).1 = totalCoins w := by
  cases hf : findSession w.sessions cid with
  | none => simp [dropCoins, hf]
  | some s =>
    by_cases hz : s.coins = 0
    · simp [dropCoins, hf, hz]
    · cases hr : lookupRoom w.rooms s.roomId with
      | none => simp [dropCoins, hf, hz, hr]
      | some rc =>
        have h1 := roomCoinSum_setRoomCoins w.rooms s.roomId rc (rc + s.coins) hr
        have h2 := invCoinSum_setSessionCoins w.sessions cid s 0 hf
        simp [dropCoins, hf, hz, hr, totalCoins]
        omega

theorem totalCoins_applyCoinOp (w : World) (op : CoinOp) :
    totalCoins (applyCoinOp w op) = totalCoins w := by
  cases op with
  | collect cid => exact totalCoins_collectCoins w cid
  | drop cid => exact totalCoins_dropCoins w cid

theorem lookupRoom_setRoomCoins_self (rooms : List (String × Nat))
    (rid : String) (rc c : Nat) (h : lookupRoom rooms rid = some rc) :
    lookupRoom (setRoomCoins rooms rid c) rid = some c := by
  induction rooms with
  | nil => simp [lookupRoom] at h
  | cons p rest ih =>
    obtain ⟨r0, c0⟩ := p
    by_cases hr : r0 = rid
    · simp [setRoomCoins, hr, lookupRoom]
    · simp [lookupRoom, hr] at h
      simp [setRoomCoins, hr, lookupRoom, ih h]

theorem findSession_setSessionCoins_self (sessions : List PlayerSession)
    (cid : String) (s : PlayerSession) (c : Nat)
    (h : findSession sessions cid = some s) :
    findSession (setSessionCoins sessions cid c) cid =
      some { s with coins := c } := by
  induction sessions with
  | nil => simp [findSession] at h
  | cons s0 rest ih =>
    by_cases hc : s0.charId = cid
    · simp [findSession, hc] at h
      subst h
      simp [setSessionCoins, hc, findSession]
    · simp [findSession, hc] at h
      simp [setSessionCoins, hc, findSession, ih h]

theorem findSession_charId (l : List PlayerSession) (a : String)
    (s : PlayerSession) (h : findSession l a = some s) : s.charId = a := by
  induction l with
  | nil => simp [findSession] at h
  | cons s0 rest ih =>
    by_cases h0 : s0.charId = a
    · simp [findSession, h0] at h
      subst h
      exact h0
    · simp [findSession, h0] at h
      exact ih h

theorem findSession_map (f : PlayerSession → PlayerSession)
    (hf : ∀ s, (f s).charId = s.charId) (l : List PlayerSession) (a : String) :
    findSession (l.map f) a = (findSession l a).map f := by
  induction l with
  | nil => simp [findSession]
  | cons s0 rest ih =>
    by_cases ha : s0.charId = a
    · simp [findSession, List.map_cons, hf, ha]
    · simp [findSession, List.map_cons, hf, ha, ih]

theorem findSession_setLastSender (l : List PlayerSession) (cid x a : String) :
    findSession (setLastSender l cid x) a =
      (findSession l a).map
        (fun s =>
          if s.charId = cid then { s with lastSender := some x } else s) := by
  have hpres : ∀ s : PlayerSession,
      ((fun s : PlayerSession =>
        if s.charId = cid then { s with lastSender := some x } else s) s).charId
        = s.charId := by
    intro s
    by_cases h : s.charId = cid <;> simp [h]
  exact findSession_map _ hpres l a

theorem findSession_setAllLastSender (l : List PlayerSession) (x a : String) :
    findSession (setAllLastSender l x) a =
      (findSession l a).map
        (fun s =>
          if s.charId = x then s else { s with lastSender := some x }) := by
  have hpres : ∀ s : PlayerSession,
      ((fun s : PlayerSession =>
        if s.charId = x then s else { s with lastSender := some x }) s).charId
        = s.charId := by
    intro s
    by_cases h : s.charId = x <;> simp [h]
  exact findSession_map _ hpres l a

theorem setAllLastSender_mem (l : List PlayerSession) (a : String)
    (s : PlayerSession) (hs : s ∈ setAllLastSender l a) (hne : s.charId ≠ a) :
    s.lastSender = some a := by
  obtain ⟨s0, hs0, heq⟩ := List.mem_map.mp hs
  by_cases h : s0.charId = a
  · rw [if_pos h] at heq
    subst heq
    exact absurd h hne
  · rw [if_neg h] at heq
    subst heq
    rfl

end Jungeon

/-- Claim C2: under the serialized-mutation model of spec section 5, an
interleaving of two checkout calls on the same character id is one of the two
sequential orders, and the two orders coincide because the initial registry is
arbitrary; in every such order the second call fails with AlreadyInUse, hence
at most one of the two calls succeeds, and a checkout on an id that is already
bound to a live session fails with AlreadyInUse. -/
theorem c2_checkout_exclusive (r : Jungeon.Registry) (id : String) :
    (Jungeon.checkout (Jungeon.checkout r id).1 id).2 =
        Jungeon.CheckoutResult.alreadyInUse ∧
    ¬((Jungeon.checkout r id).2 = Jungeon.CheckoutResult.ok ∧
      (Jungeon.checkout (Jungeon.checkout r id).1 id).2 =
        Jungeon.CheckoutResult.ok) ∧
    (id ∈ r.inUse →
      (Jungeon.checkout r id).2 = Jungeon.CheckoutResult.alreadyInUse) := by
  by_cases h : id ∈ r.inUse
  · simp [Jungeon.checkout, h]
  · simp [Jungeon.checkout, h]

/-- Witness for C2 at a concrete registry: the id is already bound, so the
checkout fails with AlreadyInUse. -/
theorem c2_checkout_exclusive_witness :
    (Jungeon.checkout { inUse := ["alice"] } "alice").2 =
      Jungeon.CheckoutResult.alreadyInUse :=
  (c2_checkout_exclusive { inUse := ["alice"] } "alice").2.2 (by simp)

/-- Claim C6: collectCoins transfers all coins from the character current room
to its inventory — the room count becomes 0, the inventory grows by the prior
room count, and the result is reported as collected N coins — while a room
with zero coins yields the non-error informational result nothing to collect
and leaves the world unchanged. -/
theorem c6_collect_coins (w : Jungeon.World) (cid : String)
    (s : Jungeon.PlayerSession) (rc : Nat)
    (hf : Jungeon.findSession w.sessions cid = some s)
    (hr : Jungeon.lookupRoom w.rooms s.roomId = some rc) :
    (rc ≠ 0 →
      (Jungeon.collectCoins w cid).2 = Jungeon.CollectOutcome.collected rc ∧
      Jungeon.collectMessage (Jungeon.collectCoins w cid).2 =
        "collected " ++ toString rc ++ " coins" ∧
      Jungeon.lookupRoom (Jungeon.collectCoins w cid).1.rooms s.roomId =
        some 0 ∧
      Jungeon.findSession (Jungeon.collectCoins w cid).1.sessions cid =
        some { s with coins := s.coins + rc }) ∧
    (rc = 0 →
      Jungeon.collectCoins w cid = (w, Jungeon.CollectOutcome.nothingToCollect) ∧
      Jungeon.collectMessage (Jungeon.collectCoins w cid).2 =
        "nothing to collect") := by
  constructor
  · intro hz
    refine ⟨?_, ?_, ?_, ?_⟩
    · simp [Jungeon.collectCoins, hf, hr, hz]
    · simp [Jungeon.collectCoins, hf, hr, hz, Jungeon.collectMessage]
    · simp only [Jungeon.collectCoins, hf, hr, hz, if_neg hz]
      exact Jungeon.lookupRoom_setRoomCoins_self w.rooms s.roomId rc 0 hr
    · simp only [Jungeon.collectCoins, hf, hr, hz, if_neg hz]
      exact Jungeon.findSession_setSessionCoins_self w.sessions cid s
        (s.coins + rc) hf
  · intro hz
    subst hz
    constructor
    · simp [Jungeon.collectCoins, hf, hr]
    · simp [Jungeon.collectCoins, hf, hr, Jungeon.collectMessage]

/-- Witness for C6 at the concrete scenario of spec section 8: room R1 holds
5 coins and character a holds none; the first collect yields collected 5
coins with room 0 and inventory 5, and a collect in the resulting world
yields nothing to collect with the world unchanged. -/
theorem c6_collect_coins_witness :
    (Jungeon.collectCoins
        ⟨[("R1", 5)], [⟨"a", "Alice", "R1", 0, none⟩]⟩ "a").2 =
      Jungeon.CollectOutcome.collected 5 ∧
    Jungeon.lookupRoom
        (Jungeon.collectCoins
          ⟨[("R1", 5)], [⟨"a", "Alice", "R1", 0, none⟩]⟩ "a").1.rooms "R1" =
      some 0 ∧
    Jungeon.findSession
        (Jungeon.collectCoins
          ⟨[("R1", 5)], [⟨"a", "Alice", "R1", 0, none⟩]⟩ "a").1.sessions "a" =
      some ⟨"a", "Alice", "R1", 5, none⟩ ∧
    Jungeon.collectCoins
        ⟨[("R1", 0)], [⟨"a", "Alice", "R1", 5, none⟩]⟩ "a" =
      (⟨[("R1", 0)], [⟨"a", "Alice", "R1", 5, none⟩]⟩,
        Jungeon.CollectOutcome.nothingToCollect) := by
  have h1 := (c6_collect_coins
    ⟨[("R1", 5)], [⟨"a", "Alice", "R1", 0, none⟩]⟩ "a"
    ⟨"a", "Alice", "R1", 0, none⟩ 5 (by decide) (by decide)).1 (by decide)
  have h2 := (c6_collect_coins
    ⟨[("R1", 0)], [⟨"a", "Alice", "R1", 5, none⟩]⟩ "a"
    ⟨"a", "Alice", "R1", 5, none⟩ 0 (by decide) (by decide)).2 rfl
  exact ⟨h1.1, h1.2.2.1, by simpa using h1.2.2.2, h2.1⟩

/-- Claim C3: name resolution resolves the reserved token all first, then a
unique exact case-insensitive full-name match, then a case-insensitive prefix
match against each online name first word — zero prefix matches give NotFound,
exactly one gives the hit, several give Ambiguous with the candidate names;
with Bob the Brave and Boris the Bold online, bo is Ambiguous, bob resolves to
Bob the Brave and boris to Boris the Bold. -/
theorem c3_name_resolution :
    (∀ online : List String,
      Jungeon.resolveName "all" online = Jungeon.ResolveResult.all) ∧
    (∀ token online n, Jungeon.lowerStr token ≠ "all" →
      Jungeon.exactMatches token online = [n] →
      Jungeon.resolveName token online = Jungeon.ResolveResult.hit n) ∧
    (∀ token online, Jungeon.lowerStr token ≠ "all" →
      Jungeon.exactMatches token online = [] →
      Jungeon.firstWordHits token online = [] →
      Jungeon.resolveName token online = Jungeon.ResolveResult.notFound) ∧
    (∀ token online n, Jungeon.lowerStr token ≠ "all" →
      Jungeon.exactMatches token online = [] →
      Jungeon.firstWordHits token online = [n] →
      Jungeon.resolveName token online = Jungeon.ResolveResult.hit n) ∧
    (∀ token online n1 n2 ns, Jungeon.lowerStr token ≠ "all" →
      Jungeon.exactMatches token online = [] →
      Jungeon.firstWordHits token online = n1 :: n2 :: ns →
      Jungeon.resolveName token online =
        Jungeon.ResolveResult.ambiguous (n1 :: n2 :: ns)) ∧
    (Jungeon.resolveName "bo" ["Bob the Brave", "Boris the Bold"] =
      Jungeon.ResolveResult.ambiguous ["Bob the Brave", "Boris the Bold"]) ∧
    (Jungeon.resolveName "bob" ["Bob the Brave", "Boris the Bold"] =
      Jungeon.ResolveResult.hit "Bob the Brave") ∧
    (Jungeon.resolveName "boris" ["Bob the Brave", "Boris the Bold"] =
      Jungeon.ResolveResult.hit "Boris the Bold") := by
  refine ⟨?_, ?_, ?_, ?_, ?_, ?_, ?_, ?_⟩
  · intro online
    have h : Jungeon.lowerStr "all" = "all" := by decide
    simp [Jungeon.resolveName, h]
  · intro token online n hall hex
    simp [Jungeon.resolveName, if_neg hall, hex]
  · intro token online hall hex hfw
    simp [Jungeon.resolveName, if_neg hall, hex, hfw]
  · intro token online n hall hex hfw
    simp [Jungeon.resolveName, if_neg hall, hex, hfw]
  · intro token online n1 n2 ns hall hex hfw
    simp [Jungeon.resolveName, if_neg hall, hex, hfw]
  · decide
  · decide
  · decide

/-- Witness for C3: the implication clauses applied at concrete inputs — an
unmatched token resolves to NotFound and a full exact name resolves to the
hit. -/
theorem c3_name_resolution_witness :
    Jungeon.resolveName "xerxes" ["Bob the Brave", "Boris the Bold"] =
      Jungeon.ResolveResult.notFound ∧
    Jungeon.resolveName "BOB THE BRAVE" ["Bob the Brave", "Boris the Bold"] =
      Jungeon.ResolveResult.hit "Bob the Brave" := by
  constructor
  · exact c3_name_resolution.2.2.1 "xerxes" ["Bob the Brave", "Boris the Bold"]
      (by decide) (by decide) (by decide)
  · exact c3_name_resolution.2.1 "BOB THE BRAVE"
      ["Bob the Brave", "Boris the Bold"] "Bob the Brave"
      (by decide) (by decide)

/-- Claim C4: reply fails with NoPriorSender when the sender has no recorded
last-message-sender and otherwise behaves exactly as tell to that id; every
tell — direct or broadcast — records the sender as each recipient
last-message-sender, so after A tells B, a reply by B reaches A as a direct
tell. -/
theorem c4_reply :
    (∀ (st : Jungeon.MsgState) (sid : String) (s : Jungeon.PlayerSession)
        (text : String),
      Jungeon.findSession st.sessions sid = some s → s.lastSender = none →
      Jungeon.reply st sid text = .error .noPriorSender) ∧
    (∀ (st : Jungeon.MsgState) (sid t : String) (s : Jungeon.PlayerSession)
        (text : String),
      Jungeon.findSession st.sessions sid = some s → s.lastSender = some t →
      Jungeon.reply st sid text = Jungeon.tell st sid (.toChar t) text) ∧
    (∀ (st : Jungeon.MsgState) (a b : String) (sB : Jungeon.PlayerSession)
        (text : String) (st2 : Jungeon.MsgState) (ds : List Jungeon.Delivery),
      Jungeon.findSession st.sessions b = some sB →
      Jungeon.tell st a (.toChar b) text = .ok (st2, ds) →
      Jungeon.findSession st2.sessions b =
        some { sB with lastSender := some a }) ∧
    (∀ (st : Jungeon.MsgState) (a text : String) (st2 : Jungeon.MsgState)
        (ds : List Jungeon.Delivery),
      Jungeon.tell st a .toAll text = .ok (st2, ds) →
      ∀ s ∈ st2.sessions, s.charId ≠ a → s.lastSender = some a) ∧
    (∀ (st : Jungeon.MsgState) (a b : String)
        (sA sB : Jungeon.PlayerSession) (text text2 : String)
        (st2 : Jungeon.MsgState) (ds : List Jungeon.Delivery),
      Jungeon.findSession st.sessions a = some sA →
      Jungeon.findSession st.sessions b = some sB →
      Jungeon.tell st a (.toChar b) text = .ok (st2, ds) →
      Jungeon.reply st2 b text2 =
        .ok ({ sessions := Jungeon.setLastSender st2.sessions a b },
          [{ recipient := a,
             message := Jungeon.tellFormatDirect sB.name text2 }])) := by
  refine ⟨?_, ?_, ?_, ?_, ?_⟩
  · intro st sid s text hf hn
    simp [Jungeon.reply, hf, hn]
  · intro st sid t s text hf ht
    simp [Jungeon.reply, hf, ht]
  · intro st a b sB text st2 ds hfb htell
    cases hfa : Jungeon.findSession st.sessions a with
    | none => simp [Jungeon.tell, hfa] at htell
    | some sender =>
      simp [Jungeon.tell, hfa, hfb] at htell
      obtain ⟨hst2, hds⟩ := htell
      have hb := Jungeon.findSession_charId st.sessions b sB hfb
      rw [← hst2]
      rw [Jungeon.findSession_setLastSender, hfb]
      simp [hb]
  · intro st a text st2 ds htell s hs hne
    cases hfa : Jungeon.findSession st.sessions a with
    | none => simp [Jungeon.tell, hfa] at htell
    | some sender =>
      simp [Jungeon.tell, hfa] at htell
      obtain ⟨hst2, hds⟩ := htell
      rw [← hst2] at hs
      exact Jungeon.setAllLastSender_mem st.sessions a s hs hne
  · intro st a b sA sB text text2 st2 ds hfa hfb htell
    simp [Jungeon.tell, hfa, hfb] at htell
    obtain ⟨hst2, hds⟩ := htell
    have hbid := Jungeon.findSession_charId st.sessions b sB hfb
    have hfb2 : Jungeon.findSession st2.sessions b =
        some { sB with lastSender := some a } := by
      rw [← hst2, Jungeon.findSession_setLastSender, hfb]
      simp [hbid]
    have hfa2 : Jungeon.findSession st2.sessions a =
        some (if sA.charId = b then { sA with lastSender := some a }
          else sA) := by
      rw [← hst2, Jungeon.findSession_setLastSender, hfa]
      rfl
    simp [Jungeon.reply, hfb2, Jungeon.tell, hfa2]

/-- Witness for C4: in a concrete two-character world, Alice with no recorded
sender gets NoPriorSender, and after Alice tells Bob, Bob reply is a direct
tell back to Alice. -/
theorem c4_reply_witness :
    Jungeon.reply
        ⟨[⟨"a", "Alice", "R1", 0, none⟩, ⟨"b", "Bob", "R1", 0, none⟩]⟩
        "a" "anyone there" = .error .noPriorSender ∧
    Jungeon.reply
        ⟨[⟨"a", "Alice", "R1", 0, none⟩, ⟨"b", "Bob", "R1", 0, some "a"⟩]⟩
        "b" "yo" =
      .ok ({ sessions := Jungeon.setLastSender
              [⟨"a", "Alice", "R1", 0, none⟩, ⟨"b", "Bob", "R1", 0, some "a"⟩]
              "a" "b" },
        [{ recipient := "a",
           message := Jungeon.tellFormatDirect "Bob" "yo" }]) := by
  constructor
  · exact c4_reply.1
      ⟨[⟨"a", "Alice", "R1", 0, none⟩, ⟨"b", "Bob", "R1", 0, none⟩]⟩
      "a" ⟨"a", "Alice", "R1", 0, none⟩ "anyone there" (by decide) rfl
  · exact c4_reply.2.2.2.2
      ⟨[⟨"a", "Alice", "R1", 0, none⟩, ⟨"b", "Bob", "R1", 0, none⟩]⟩
      "a" "b" ⟨"a", "Alice", "R1", 0, none⟩ ⟨"b", "Bob", "R1", 0, none⟩
      "hi" "yo"
      ⟨[⟨"a", "Alice", "R1", 0, none⟩, ⟨"b", "Bob", "R1", 0, some "a"⟩]⟩
      [{ recipient := "b",
         message := Jungeon.tellFormatDirect "Alice" "hi" }]
      (by decide) (by decide) rfl

/-- Claim C5: yell produces the same delivery and last-sender effects as tell
— the two agree on errors, and on success they produce the same state and the
same recipients — with the sender phrase and the text upper-cased; a broadcast
yell of hi by A delivers A YELLS AT EVERYONE with the upper-cased text to
every other online character, each of whom gets A recorded as last sender. -/
theorem c5_yell :
    (∀ (st : Jungeon.MsgState) (sid : String) (tgt : Jungeon.MsgTarget)
        (text : String) (e : Jungeon.MsgError),
      Jungeon.tell st sid tgt text = .error e ↔
        Jungeon.yell st sid tgt text = .error e) ∧
    (∀ (st : Jungeon.MsgState) (sid : String) (tgt : Jungeon.MsgTarget)
        (text : String) (st2 : Jungeon.MsgState) (ds : List Jungeon.Delivery),
      Jungeon.tell st sid tgt text = .ok (st2, ds) →
      ∃ ds2, Jungeon.yell st sid tgt text = .ok (st2, ds2) ∧
        ds2.map Jungeon.Delivery.recipient = ds.map Jungeon.Delivery.recipient) ∧
    (∀ (st : Jungeon.MsgState) (a : String) (sA : Jungeon.PlayerSession)
        (text : String),
      Jungeon.findSession st.sessions a = some sA →
      Jungeon.yell st a .toAll text =
        .ok ({ sessions := Jungeon.setAllLastSender st.sessions a },
          (st.sessions.filter (fun s => s.charId != a)).map
            (fun s => { recipient := s.charId,
                        message := Jungeon.yellFormatAll sA.name text }))) ∧
    (∀ (l : List Jungeon.PlayerSession) (a : String)
        (s : Jungeon.PlayerSession),
      s ∈ Jungeon.setAllLastSender l a → s.charId ≠ a →
      s.lastSender = some a) ∧
    (Jungeon.yellFormatAll "Alice" "hi" =
      "ALICE YELLS AT EVERYONE: " ++ Jungeon.sq ++ "HI" ++ Jungeon.sq) := by
  refine ⟨?_, ?_, ?_, ?_, ?_⟩
  · intro st sid tgt text e
    cases hfs : Jungeon.findSession st.sessions sid with
    | none => simp [Jungeon.tell, Jungeon.yell, hfs]
    | some sender =>
      cases tgt with
      | toChar tid =>
        cases hft : Jungeon.findSession st.sessions tid with
        | none => simp [Jungeon.tell, Jungeon.yell, hfs, hft]
        | some t => simp [Jungeon.tell, Jungeon.yell, hfs, hft]
      | toAll => simp [Jungeon.tell, Jungeon.yell, hfs]
  · intro st sid tgt text st2 ds htell
    cases hfs : Jungeon.findSession st.sessions sid with
    | none => simp [Jungeon.tell, hfs] at htell
    | some sender =>
      cases tgt with
      | toChar tid =>
        cases hft : Jungeon.findSession st.sessions tid with
        | none => simp [Jungeon.tell, hfs, hft] at htell
        | some t =>
          simp [Jungeon.tell, hfs, hft] at htell
          obtain ⟨hst2, hds⟩ := htell
          refine ⟨[⟨tid, Jungeon.yellFormatDirect sender.name text⟩], ?_, ?_⟩
          · simp [Jungeon.yell, hfs, hft, hst2]
          · rw [← hds]
            rfl
      | toAll =>
        simp [Jungeon.tell, hfs] at htell
        obtain ⟨hst2, hds⟩ := htell
        refine ⟨(st.sessions.filter (fun s => s.charId != sid)).map
          (fun s => ⟨s.charId, Jungeon.yellFormatAll sender.name text⟩),
          ?_, ?_⟩
        · simp [Jungeon.yell, hfs, hst2]
        · rw [← hds]
          simp [List.map_map]
  · intro st a sA text hfa
    simp [Jungeon.yell, hfa]
  · exact Jungeon.setAllLastSender_mem
  · decide

/-- Witness for C5: the concrete broadcast scenario of spec section 8 — Alice
yells hi to all while Bob is online, Bob receives the upper-cased broadcast
and has Alice recorded as last sender; a yell at an unknown target errors
exactly as the corresponding tell does. -/
theorem c5_yell_witness :
    Jungeon.yell
        ⟨[⟨"a", "Alice", "R1", 0, none⟩, ⟨"b", "Bob", "R1", 0, none⟩]⟩
        "a" .toAll "hi" =
      .ok ({ sessions := Jungeon.setAllLastSender
              [⟨"a", "Alice", "R1", 0, none⟩, ⟨"b", "Bob", "R1", 0, none⟩]
              "a" },
        [{ recipient := "b", message := Jungeon.yellFormatAll "Alice" "hi" }]) ∧
    Jungeon.yell
        ⟨[⟨"a", "Alice", "R1", 0, none⟩]⟩ "a" (.toChar "nobody") "hi" =
      .error .notFound := by
  constructor
  · have h := c5_yell.2.2.1
      ⟨[⟨"a", "Alice", "R1", 0, none⟩, ⟨"b", "Bob", "R1", 0, none⟩]⟩
      "a" ⟨"a", "Alice", "R1", 0, none⟩ "hi" (by decide)
    rw [h]
    rfl
  · exact (c5_yell.1 ⟨[⟨"a", "Alice", "R1", 0, none⟩]⟩ "a"
      (.toChar "nobody") "hi" .notFound).mp rfl

/-- Claim C7: the client dispatches exactly on the four payload types —
roomState renders the room view, event appends its text to the log, inventory
updates the displayed coin count, error appends its user-facing message — and
a message with any other type, or with the relevant data field missing,
changes nothing. -/
theorem c7_dispatch :
    (∀ (st : Jungeon.UiState) (msg : Jungeon.ServerMsg),
      msg.type ≠ "roomState" → msg.type ≠ "event" →
      msg.type ≠ "inventory" → msg.type ≠ "error" →
      Jungeon.handleServerMessage st msg = st) ∧
    (∀ (st : Jungeon.UiState) (msg : Jungeon.ServerMsg),
      msg.type = "roomState" →
      Jungeon.handleServerMessage st msg = Jungeon.renderRoom st msg.data) ∧
    (∀ (st : Jungeon.UiState) (msg : Jungeon.ServerMsg) (t : String),
      msg.type = "event" → msg.data.text = some t → t ≠ "" →
      Jungeon.handleServerMessage st msg = Jungeon.appendLog st t "event") ∧
    (∀ (st : Jungeon.UiState) (msg : Jungeon.ServerMsg),
      msg.type = "event" → msg.data.text = none →
      Jungeon.handleServerMessage st msg = st) ∧
    (∀ (st : Jungeon.UiState) (msg : Jungeon.ServerMsg),
      msg.type = "inventory" →
      Jungeon.handleServerMessage st msg =
        Jungeon.renderInventory st msg.data) ∧
    (∀ (st : Jungeon.UiState) (msg : Jungeon.ServerMsg) (n : Int),
      msg.type = "inventory" → msg.data.coins = some n →
      (Jungeon.handleServerMessage st msg).goldCount = toString n) ∧
    (∀ (st : Jungeon.UiState) (msg : Jungeon.ServerMsg),
      msg.type = "inventory" → msg.data.coins = none →
      msg.data.items = none → Jungeon.handleServerMessage st msg = st) ∧
    (∀ (st : Jungeon.UiState) (msg : Jungeon.ServerMsg) (m : String),
      msg.type = "error" → msg.data.message = some m → m ≠ "" →
      Jungeon.handleServerMessage st msg = Jungeon.appendLog st m "error") ∧
    (∀ (st : Jungeon.UiState) (msg : Jungeon.ServerMsg),
      msg.type = "error" → msg.data.message = none →
      Jungeon.handleServerMessage st msg = st) := by
  refine ⟨?_, ?_, ?_, ?_, ?_, ?_, ?_, ?_, ?_⟩
  · intro st msg h1 h2 h3 h4
    simp [Jungeon.handleServerMessage, h1, h2, h3, h4]
  · intro st msg h
    simp [Jungeon.handleServerMessage, h]
  · intro st msg t h ht hne
    simp [Jungeon.handleServerMessage, h, ht, hne]
  · intro st msg h ht
    simp [Jungeon.handleServerMessage, h, ht]
  · intro st msg h
    simp [Jungeon.handleServerMessage, h]
  · intro st msg n h hc
    simp [Jungeon.handleServerMessage, h, Jungeon.renderInventory, hc]
    cases hi : msg.data.items <;> simp [hi]
  · intro st msg h hc hi
    simp [Jungeon.handleServerMessage, h, Jungeon.renderInventory, hc, hi]
  · intro st msg m h hm hne
    simp [Jungeon.handleServerMessage, h, hm, hne]
  · intro st msg h hm
    simp [Jungeon.handleServerMessage, h, hm]

/-- Witness for C7 at concrete messages: an unknown payload type changes
nothing, an event appends its text, an inventory payload updates the gold
counter, and an error with no message field changes nothing. -/
theorem c7_dispatch_witness :
    Jungeon.handleServerMessage
        ⟨[], "", "", "", "", [], []⟩
        ⟨"bogus", ⟨none, none, none, none, none, none, none, none⟩⟩ =
      ⟨[], "", "", "", "", [], []⟩ ∧
    Jungeon.handleServerMessage
        ⟨[], "", "", "", "", [], []⟩
        ⟨"event", ⟨none, none, none, none, some "hello", none, none, none⟩⟩ =
      Jungeon.appendLog ⟨[], "", "", "", "", [], []⟩ "hello" "event" ∧
    (Jungeon.handleServerMessage
        ⟨[], "", "", "", "", [], []⟩
        ⟨"inventory",
          ⟨none, none, none, none, none, some 7, none, none⟩⟩).goldCount =
      toString (7 : Int) ∧
    Jungeon.handleServerMessage
        ⟨[], "", "", "", "", [], []⟩
        ⟨"error", ⟨none, none, none, none, none, none, none, none⟩⟩ =
      ⟨[], "", "", "", "", [], []⟩ := by
  refine ⟨?_, ?_, ?_, ?_⟩
  · exact c7_dispatch.1 ⟨[], "", "", "", "", [], []⟩
      ⟨"bogus", ⟨none, none, none, none, none, none, none, none⟩⟩
      (by decide) (by decide) (by decide) (by decide)
  · exact c7_dispatch.2.2.1 ⟨[], "", "", "", "", [], []⟩
      ⟨"event", ⟨none, none, none, none, some "hello", none, none, none⟩⟩
      "hello" rfl rfl (by decide)
  · exact c7_dispatch.2.2.2.2.2.1 ⟨[], "", "", "", "", [], []⟩
      ⟨"inventory", ⟨none, none, none, none, none, some 7, none, none⟩⟩
      7 rfl rfl
  · exact c7_dispatch.2.2.2.2.2.2.2.2 ⟨[], "", "", "", "", [], []⟩
      ⟨"error", ⟨none, none, none, none, none, none, none, none⟩⟩
      rfl rfl

/-- Claim C8: a websocket payload whose data does not parse is silently
ignored — the handler returns the state unchanged and never raises (the
embedding is a total function) — and the message callback runs exactly on
successfully parsed messages. -/
theorem c8_parse_guard :
    (∀ (parse : String → Option Jungeon.ServerMsg) (st : Jungeon.UiState)
        (payload : String),
      parse payload = none → Jungeon.onRawMessage parse st payload = st) ∧
    (∀ (parse : String → Option Jungeon.ServerMsg) (st : Jungeon.UiState)
        (payload : String) (msg : Jungeon.ServerMsg),
      parse payload = some msg →
      Jungeon.onRawMessage parse st payload =
        Jungeon.handleServerMessage st msg) := by
  constructor
  · intro parse st payload h
    simp [Jungeon.onRawMessage, h]
  · intro parse st payload msg h
    simp [Jungeon.onRawMessage, h]

/-- Witness for C8: a parse failure at a concrete payload leaves the state
unchanged, and a concrete successful parse feeds exactly the parsed message
to the dispatcher. -/
theorem c8_parse_guard_witness :
    Jungeon.onRawMessage (fun _ => none) ⟨[], "", "", "", "", [], []⟩
      "not json" = ⟨[], "", "", "", "", [], []⟩ ∧
    Jungeon.onRawMessage
        (fun _ => some ⟨"event",
          ⟨none, none, none, none, some "hi", none, none, none⟩⟩)
        ⟨[], "", "", "", "", [], []⟩ "payload" =
      Jungeon.handleServerMessage ⟨[], "", "", "", "", [], []⟩
        ⟨"event", ⟨none, none, none, none, some "hi", none, none, none⟩⟩ := by
  constructor
  · exact c8_parse_guard.1 (fun _ => none) ⟨[], "", "", "", "", [], []⟩
      "not json" rfl
  · exact c8_parse_guard.2
      (fun _ => some ⟨"event",
        ⟨none, none, none, none, some "hi", none, none, none⟩⟩)
      ⟨[], "", "", "", "", [], []⟩ "payload"
      ⟨"event", ⟨none, none, none, none, some "hi", none, none, none⟩⟩ rfl

/-- Claim C9: the client never sends a command frame when the trimmed input is
empty or the socket is absent or not OPEN — sendCommand and the Enter-key
path are no-ops there — and every frame actually sent carries non-empty text
on an open socket. -/
theorem c9_send_guard :
    (∀ ns : Jungeon.NetState, Jungeon.sendCommand ns "" = ns) ∧
    (∀ (ns : Jungeon.NetState) (text : String),
      ns.ws = none → Jungeon.sendCommand ns text = ns) ∧
    (∀ (ns : Jungeon.NetState) (text : String) (rs : Nat),
      ns.ws = some rs → rs ≠ Jungeon.wsOPEN →
      Jungeon.sendCommand ns text = ns) ∧
    (∀ (ns : Jungeon.NetState) (raw : String),
      Jungeon.trimStr raw = "" → Jungeon.enterKey ns raw = ns) ∧
    (∀ (ns : Jungeon.NetState) (text : String),
      (Jungeon.sendCommand ns text).sent ≠ ns.sent →
      text ≠ "" ∧ ns.ws = some Jungeon.wsOPEN ∧
      (Jungeon.sendCommand ns text).sent = ns.sent ++ [text]) ∧
    (∀ (ns : Jungeon.NetState) (raw : String),
      (Jungeon.enterKey ns raw).sent ≠ ns.sent →
      Jungeon.trimStr raw ≠ "" ∧ ns.ws = some Jungeon.wsOPEN ∧
      (Jungeon.enterKey ns raw).sent = ns.sent ++ [Jungeon.trimStr raw]) := by
  have hsend : ∀ (ns : Jungeon.NetState) (text : String),
      (Jungeon.sendCommand ns text).sent ≠ ns.sent →
      text ≠ "" ∧ ns.ws = some Jungeon.wsOPEN ∧
      (Jungeon.sendCommand ns text).sent = ns.sent ++ [text] := by
    intro ns text h
    by_cases ht : text = ""
    · simp [Jungeon.sendCommand, ht] at h
    · cases hw : ns.ws with
      | none => simp [Jungeon.sendCommand, ht, hw] at h
      | some rs =>
        by_cases hrs : rs = Jungeon.wsOPEN
        · subst hrs
          simp [Jungeon.sendCommand, ht, hw]
        · simp [Jungeon.sendCommand, ht, hw, hrs] at h
  refine ⟨?_, ?_, ?_, ?_, hsend, ?_⟩
  · intro ns
    simp [Jungeon.sendCommand]
  · intro ns text h
    by_cases ht : text = "" <;> simp [Jungeon.sendCommand, ht, h]
  · intro ns text rs h hrs
    by_cases ht : text = "" <;> simp [Jungeon.sendCommand, ht, h, hrs]
  · intro ns raw h
    simp [Jungeon.enterKey, h]
  · intro ns raw h
    by_cases ht : Jungeon.trimStr raw = ""
    · simp [Jungeon.enterKey, ht] at h
    · rw [show Jungeon.enterKey ns raw =
        Jungeon.sendCommand ns (Jungeon.trimStr raw) by
          simp [Jungeon.enterKey, ht]] at h ⊢
      exact ⟨ht, (hsend ns (Jungeon.trimStr raw) h).2.1,
        (hsend ns (Jungeon.trimStr raw) h).2.2⟩

/-- Witness for C9 at concrete inputs: a whitespace-only Enter is dropped, a
closed socket sends nothing, and a real command on an open socket appends
exactly that frame. -/
theorem c9_send_guard_witness :
    Jungeon.enterKey ⟨some Jungeon.wsOPEN, []⟩ "   " =
      ⟨some Jungeon.wsOPEN, []⟩ ∧
    Jungeon.sendCommand ⟨some 0, []⟩ "look" = ⟨some 0, []⟩ ∧
    (Jungeon.sendCommand ⟨some Jungeon.wsOPEN, []⟩ "look").sent = ["look"] := by
  refine ⟨?_, ?_, ?_⟩
  · exact c9_send_guard.2.2.2.1 ⟨some Jungeon.wsOPEN, []⟩ "   " (by decide)
  · exact c9_send_guard.2.2.1 ⟨some 0, []⟩ "look" 0 rfl (by decide)
  · exact ((c9_send_guard.2.2.2.2.1 ⟨some Jungeon.wsOPEN, []⟩ "look")
      (by decide)).2.2

/-- Claim C10: for every exits list passed to the room renderer, each
directional control button (n, s, e, w) ends up enabled exactly when the
corresponding full direction name occurs in the exits list after lower-casing,
every non-directional button is untouched, and renderRoom applies exactly this
update to the button list whenever the payload carries an exits list. -/
theorem c10_buttons :
    (∀ (exits : List String) (btn : Jungeon.Button) (cmd full : String),
      Jungeon.lowerStr btn.command = cmd →
      ((cmd = "n" ∧ full = "north") ∨ (cmd = "s" ∧ full = "south") ∨
       (cmd = "e" ∧ full = "east") ∨ (cmd = "w" ∧ full = "west")) →
      (Jungeon.updButton exits btn).command = btn.command ∧
      ((Jungeon.updButton exits btn).disabled = false ↔
        full ∈ exits.map Jungeon.lowerStr)) ∧
    (∀ (exits : List String) (btn : Jungeon.Button),
      Jungeon.lowerStr btn.command ≠ "n" →
      Jungeon.lowerStr btn.command ≠ "s" →
      Jungeon.lowerStr btn.command ≠ "e" →
      Jungeon.lowerStr btn.command ≠ "w" →
      Jungeon.updButton exits btn = btn) ∧
    (∀ (exits : List String) (buttons : List Jungeon.Button),
      Jungeon.updateControlButtons exits buttons =
        buttons.map (Jungeon.updButton exits)) ∧
    (∀ (st : Jungeon.UiState) (room : Jungeon.MsgData)
        (exits : List String),
      room.exits = some exits →
      (Jungeon.renderRoom st room).buttons =
        Jungeon.updateControlButtons exits st.buttons) := by
  refine ⟨?_, ?_, ?_, ?_⟩
  · intro exits btn cmd full hcmd hdir
    rcases hdir with ⟨hc, hf⟩ | ⟨hc, hf⟩ | ⟨hc, hf⟩ | ⟨hc, hf⟩ <;>
      subst hc <;> subst hf <;>
      simp [Jungeon.updButton, hcmd, List.elem_iff]
  · intro exits btn h1 h2 h3 h4
    simp [Jungeon.updButton, h1, h2, h3, h4]
  · intro exits buttons
    rfl
  · intro st room exits hexits
    by_cases h1 : Jungeon.strTruthy room.name <;>
      by_cases h3 : Jungeon.strTruthy room.minimap <;>
      by_cases h4 : Jungeon.strTruthy room.description <;>
      simp [Jungeon.renderRoom, hexits, h1, h3, h4, Jungeon.appendLog]

/-- Witness for C10 at concrete buttons: with exits North and west, the n
button ends up enabled, the s button disabled, and a non-directional button is
untouched. -/
theorem c10_buttons_witness :
    ((Jungeon.updButton ["North", "west"] ⟨"N", true⟩).disabled = false ↔
      ("north" ∈ ["North", "west"].map Jungeon.lowerStr)) ∧
    ((Jungeon.updButton ["North", "west"] ⟨"s", false⟩).disabled = false ↔
      ("south" ∈ ["North", "west"].map Jungeon.lowerStr)) ∧
    Jungeon.updButton ["North", "west"] ⟨"look", true⟩ = ⟨"look", true⟩ := by
  refine ⟨?_, ?_, ?_⟩
  · exact (c10_buttons.1 ["North", "west"] ⟨"N", true⟩ "n" "north"
      (by decide) (Or.inl ⟨rfl, rfl⟩)).2
  · exact (c10_buttons.1 ["North", "west"] ⟨"s", false⟩ "s" "south"
      (by decide) (Or.inr (Or.inl ⟨rfl, rfl⟩))).2
  · exact c10_buttons.2.1 ["North", "west"] ⟨"look", true⟩
      (by decide) (by decide) (by decide) (by decide)

/-- Claim C1: for every world state and every sequence of collect and drop
operations, the total number of coins (sum of room coin counts plus sum of
inventory coin counts) after the sequence equals the total before it; neither
operation creates or destroys coins. -/
theorem c1_coin_conservation (w : Jungeon.World) (ops : List Jungeon.CoinOp) :
    Jungeon.totalCoins (Jungeon.applyCoinOps w ops) = Jungeon.totalCoins w := by
  induction ops generalizing w with
  | nil => rfl
  | cons op rest ih =>
    rw [Jungeon.applyCoinOps, List.foldl_cons]
    rw [show List.foldl Jungeon.applyCoinOp (Jungeon.applyCoinOp w op) rest =
      Jungeon.applyCoinOps (Jungeon.applyCoinOp w op) rest from rfl]
    rw [ih, Jungeon.totalCoins_applyCoinOp]
